import Mathlib

/-!
Shallow embedding of the request-resolution and content-dispatch logic of
`main.go` (the Higure proxy).  Documents coming back from MongoDB are
modelled as dynamically typed association lists (`bson.M` values); Go type
assertions such as `file["key"].(string)` are modelled as `Option`
projections, with `none` standing for a runtime panic.  The fasthttp
request context is modelled as an explicit response state (`Ctx`)
accumulating body chunks; template execution (`html/template`) is an
external collaborator, so a rendered template is recorded structurally as
a chunk carrying the data it was executed with.
-/

namespace HigureProxy

/-- Dynamic BSON value, as held in a `bson.M` / `primitive.M` map. -/
inductive BVal where
  | str (s : String)
  | bool (b : Bool)
  | doc (fields : List (String × BVal))
  deriving Repr

/-- A decoded BSON document (`bson.M`): ordered field list. -/
abbrev Doc := List (String × BVal)

mutual

/-- Structural equality of BSON values (document field order matters,
as it does in BSON). -/
def BVal.beq : BVal → BVal → Bool
  | .str a, .str b => a == b
  | .bool a, .bool b => a == b
  | .doc a, .doc b => BVal.beqDoc a b
  | _, _ => false

/-- Structural equality of BSON documents, field by field. -/
def BVal.beqDoc : List (String × BVal) → List (String × BVal) → Bool
  | [], [] => true
  | (k, v) :: xs, (l, w) :: ys => k == l && BVal.beq v w && BVal.beqDoc xs ys
  | _, _ => false

end

/-- Go map access `m["k"]`: the first binding of the key, `none` when the
field is absent (a `nil` interface in Go). -/
def getField : Doc → String → Option BVal
  | [], _ => none
  | (k, v) :: rest, key => if k = key then some v else getField rest key

/-- Replace the value of a field (used only to state flag-insensitivity
properties; appends the binding when the field is absent). -/
def setField : Doc → String → BVal → Doc
  | [], key, v => [(key, v)]
  | (k, w) :: rest, key, v =>
      if k = key then (key, v) :: rest else (k, w) :: setField rest key v

/-- Go type assertion `.(string)`: `none` models the panic. -/
def BVal.asString : BVal → Option String
  | .str s => some s
  | _ => none

/-- Go type assertion `.(primitive.M)`: `none` models the panic. -/
def BVal.asDoc : BVal → Option Doc
  | .doc d => some d
  | _ => none

/-- Go comparison `m["k"] == true` on an `interface{}` value: true exactly
when the field is present, of boolean type, and true. -/
def isTrueField (d : Doc) (k : String) : Bool :=
  match getField d k with
  | some (.bool true) => true
  | _ => false

/-- Equality of an optional field value against a filter value (`none`
matches a missing field, mirroring a null-valued Mongo filter). -/
def optBValEq : Option BVal → Option BVal → Bool
  | none, none => true
  | some a, some b => BVal.beq a b
  | _, _ => false

/-- Mongo `FindOne` with a single-field equality filter: first document in
natural order whose field equals the filter value. -/
def findOne (docs : List Doc) (field : String) (v : Option BVal) : Option Doc :=
  docs.find? fun d => optBValEq (getField d field) v

/-- Go `strings.HasPrefix` (byte/char prefix). -/
def strStartsWith (s t : String) : Bool := t.data.isPrefixOf s.data

/-- Go `strings.HasSuffix` (byte/char suffix). -/
def strEndsWith (s t : String) : Bool := t.data.isSuffixOf s.data

/-- The chars strictly before the first occurrence of `sep`; the whole
list when `sep` does not occur.  This is `strings.SplitN(s, sep, 2)[0]`. -/
def splitFirst (sep : List Char) : List Char → List Char
  | [] => []
  | c :: rest =>
      if sep.isPrefixOf (c :: rest) then []
      else c :: splitFirst sep rest

/-- Go `strings.SplitN(s, sep, 2)[0]` on strings. -/
def strSplitFirst (s sep : String) : String := String.mk (splitFirst sep.data s.data)

/-- Fuel-indexed worker for `strings.ReplaceAll`: replace every
non-overlapping leftmost occurrence of `sep` by `repl`.  The fuel is the
input length, so the zero-fuel case is never reached (each step consumes
one unit and the list it recurses on is shorter than the input). -/
def replaceAllAux (sep repl : List Char) : Nat → List Char → List Char
  | _, [] => []
  | 0, l => l
  | n + 1, c :: rest =>
      if sep.isPrefixOf (c :: rest) then
        repl ++ replaceAllAux sep repl n (rest.drop (sep.length - 1))
      else c :: replaceAllAux sep repl n rest

/-- Replace every non-overlapping leftmost occurrence of `sep` by `repl`. -/
def replaceAll (sep repl l : List Char) : List Char :=
  replaceAllAux sep repl l.length l

/-- Go `strings.ReplaceAll`. -/
def strReplaceAll (s old new : String) : String :=
  String.mk (replaceAll old.data new.data s.data)

/-- Does `sep` occur as a contiguous substring? -/
def hasSubstr (sep : List Char) : List Char → Bool
  | [] => sep.isEmpty
  | c :: rest => sep.isPrefixOf (c :: rest) || hasSubstr sep rest

/-- Go `path.Base`: strip trailing slashes, then take the part after the
last slash; `"."` for the empty path, `"/"` for an all-slash path. -/
def pathBase (p : String) : String :=
  if p = "" then "."
  else
    let stripped := (p.data.reverse.dropWhile (· == '/')).reverse
    let last := (stripped.reverse.takeWhile (· != '/')).reverse
    if last.isEmpty then "/" else String.mk last

/-- The literal placeholder token `{domain}`. -/
def domainToken : String := "\x7bdomain\x7d"

/-- The zero-width-space suffix marking invisible aliases. -/
def zwsp : String := "\u200B"

/-- Lowest hex digit of a nibble. -/
def hexDigit (n : Nat) : Char :=
  if n < 10 then Char.ofNat (48 + n) else Char.ofNat (87 + (n % 16))

/-- Escaping of one character inside a JSON string literal, as Go's
`encoding/json` does it (with its default HTML escaping of `<`, `>`, `&`
and of U+2028/U+2029). -/
def jsonEscapeChar (c : Char) : String :=
  if c = '"' then "\\\""
  else if c = '\\' then "\\\\"
  else if c = '\n' then "\\n"
  else if c = '\r' then "\\r"
  else if c = '\t' then "\\t"
  else if c = '<' then "\\u003c"
  else if c = '>' then "\\u003e"
  else if c = '&' then "\\u0026"
  else if c = '\u2028' then "\\u2028"
  else if c = '\u2029' then "\\u2029"
  else if c.toNat < 32 then
    "\\u00" ++ String.mk [hexDigit (c.toNat / 16), hexDigit (c.toNat % 16)]
  else String.singleton c

/-- A JSON string literal for `s`. -/
def jsonQuote (s : String) : String :=
  "\"" ++ String.join (s.data.map jsonEscapeChar) ++ "\""

/-- The bytes `json.NewEncoder(ctx).Encode` writes for
`Response\x7bSuccess: false, Error: msg\x7d` (the encoder appends a newline). -/
def encodeErrBody (msg : String) : String :=
  "\x7b\"success\":false,\"error\":" ++ jsonQuote msg ++ "\x7d\n"

/-- The bytes `json.NewEncoder(ctx).Encode` writes for an
`OEmbedResponse` (struct field order: Version, Type, Title, Author). -/
def encodeOEmbedBody (title author : String) : String :=
  "\x7b\"version\":\"1.0\",\"type\":\"link\",\"title\":" ++ jsonQuote title ++
    ",\"author_name\":" ++ jsonQuote author ++ "\x7d\n"

/-- The data struct handed to `embedTemplate.Execute`. -/
structure EmbedData where
  fileURL : String
  oEmbedURL : String
  desc : String
  color : String
  image : Bool
  video : Bool
  user : String
  size : String
  name : String
  deriving Repr, DecidableEq

/-- One write into the response body.  Template execution is an external
collaborator (`html/template` with a fixed template constant), so its
output is recorded structurally with the data it was executed on. -/
inductive Chunk where
  | text (s : String)
  | embedPage (d : EmbedData)
  | showLinkPage (fileURL : String)
  deriving Repr, DecidableEq

/-- The observable response state of the fasthttp request context. -/
structure Ctx where
  contentType : Option String
  body : List Chunk
  redirect : Option (String × Nat)
  deriving Repr, DecidableEq

/-- The fresh request context: nothing written yet. -/
def emptyCtx : Ctx := ⟨none, [], none⟩

/-- Function `sendErr`: set the `Content-Type` header to
`application/json` and encode the error envelope into the body. -/
def sendErr (ctx : Ctx) (errMsg : String) : Ctx :=
  { ctx with contentType := some "application/json",
             body := ctx.body ++ [.text (encodeErrBody errMsg)] }

/-- Function `deref`: dereference an optional string, `""` for `nil`. -/
def deref : Option String → String
  | some s => s
  | none => ""

/-- An object fetched from S3: optional upstream Content-Type and body. -/
structure S3Obj where
  contentType : Option String
  body : String

/-- Process environment (the environment variables the handler reads). -/
structure Env where
  s3Endpoint : String
  s3Bucket : String

/-- External collaborators: the three Mongo collections and the object
store.  `getObject` takes bucket and key and either fails with an error
message (covering both `GetObject` and `ReadAll` failures) or returns the
object. -/
structure Stores where
  files : List Doc
  shorteners : List Doc
  invisibleurls : List Doc
  getObject : String → String → Except String S3Obj

/-- The five resolution strategies of the `switch` in `requestHandler`. -/
inductive Strategy where
  | rootRedirect
  | oembed (key : String)
  | shortlink (key : String)
  | fileResolve (key : String)
  | noop
  deriving Repr, DecidableEq

/-- Path classification: the `switch` conditions of `requestHandler`, in
source order (first match wins), together with the routing key each
branch derives from the path. -/
def classify (requestPath : String) : Strategy :=
  let basePath := pathBase requestPath
  if requestPath = "/" then .rootRedirect
  else if strEndsWith basePath ".json" then .oembed (strSplitFirst basePath ".json")
  else if strStartsWith requestPath "/s/" && basePath != "s" then .shortlink basePath
  else if basePath != "" && basePath != "favicon.ico" then .fileResolve basePath
  else .noop

/-- The oembed branch of `requestHandler` (lines 134-155): look up the
file, substitute `\x7bdomain\x7d` in `embed.title` / `embed.author`, emit the
oEmbed JSON. -/
def handleOembed (st : Stores) (host key : String) : Option Ctx :=
  match findOne st.files "filename" (some (.str key)) with
  | none => some (sendErr emptyCtx "invalid file")
  | some file =>
    match (getField file "embed").bind BVal.asDoc with
    | none => none
    | some embed =>
      match (getField embed "title").bind BVal.asString,
            (getField embed "author").bind BVal.asString with
      | some title, some author =>
          some ⟨some "application/json",
                [.text (encodeOEmbedBody (strReplaceAll title domainToken host)
                                         (strReplaceAll author domainToken host))],
                none⟩
      | _, _ => none

/-- The shortlink branch of `requestHandler` (lines 156-170): look up the
short link, prepend `https://` unless the destination starts with `http`,
301-redirect. -/
def handleShortlink (st : Stores) (key : String) : Option Ctx :=
  match findOne st.shorteners "shortId" (some (.str key)) with
  | none => some (sendErr emptyCtx "invalid short link")
  | some shortened =>
    match (getField shortened "destination").bind BVal.asString with
    | none => none
    | some destination =>
      let destination :=
        if strStartsWith destination "http" then destination
        else "https://" ++ destination
      some { emptyCtx with redirect := some (destination, 301) }

/-- File lookup of the file-resolve branch (lines 172-192): the
invisible-alias indirection when the key ends in U+200B, the direct
filename lookup otherwise; `Sum.inl` carries the error message. -/
def lookupFile (st : Stores) (key : String) : Sum String Doc :=
  if strEndsWith key zwsp then
    match findOne st.invisibleurls "_id" (some (.str key)) with
    | none => .inl "no invisible url or file was found"
    | some aliasDoc =>
      match findOne st.files "filename" (getField aliasDoc "filename") with
      | none => .inl "invalid file"
      | some f => .inr f
  else
    match findOne st.files "filename" (some (.str key)) with
    | none => .inl "invalid file"
    | some f => .inr f

/-- Serving of a resolved file record (lines 200-292): object fetch,
mimetype category, cdn URL, description substitution, then the branch on
`embed.enabled` / `showLink` / mimetype category. -/
def serveFile (env : Env) (st : Stores) (host : String) (file : Doc) : Option Ctx :=
  match (getField file "key").bind BVal.asString with
  | none => none
  | some key =>
    match st.getObject env.s3Bucket key with
    | .error e => some (sendErr emptyCtx e)
    | .ok obj =>
      match (getField file "mimetype").bind BVal.asString with
      | none => none
      | some mt =>
        let mimetype := strSplitFirst mt "/"
        let cdnURL := env.s3Endpoint ++ "/" ++ env.s3Bucket ++ "/" ++ key
        match (getField file "embed").bind BVal.asDoc with
        | none => none
        | some embed =>
          match (getField file "uploader").bind BVal.asDoc with
          | none => none
          | some uploader =>
            match (getField embed "description").bind BVal.asString with
            | none => none
            | some descRaw =>
              let desc := strReplaceAll descRaw domainToken host
              if isTrueField embed "enabled" then
                match (getField embed "color").bind BVal.asString,
                      (getField uploader "username").bind BVal.asString,
                      (getField file "filename").bind BVal.asString,
                      (getField file "size").bind BVal.asString with
                | some color, some user, some name, some size =>
                    some ⟨some "text/html",
                          [.embedPage ⟨cdnURL,
                                       "https://" ++ host ++ "/" ++ name ++ ".json",
                                       desc, color,
                                       mimetype == "image", mimetype == "video",
                                       user, size, name⟩],
                          none⟩
                | _, _, _, _ => none
              else if isTrueField file "showLink" then
                if mimetype == "video" then
                  some ⟨some (deref obj.contentType), [.text obj.body], none⟩
                else
                  some ⟨some "text/html", [.showLinkPage cdnURL], none⟩
              else
                some ⟨some (deref obj.contentType), [.text obj.body], none⟩

/-- The file-resolve branch of `requestHandler` (lines 171-292): lookup
(with alias indirection), the `userOnlyDomain` policy check, then
`serveFile`. -/
def handleFile (env : Env) (st : Stores) (host key : String) : Option Ctx :=
  match lookupFile st key with
  | .inl msg => some (sendErr emptyCtx msg)
  | .inr file =>
    if isTrueField file "userOnlyDomain" then
      match (getField file "domain").bind BVal.asString with
      | none => none
      | some domain =>
        if host != domain then some (sendErr emptyCtx "invalid file")
        else serveFile env st host file
    else serveFile env st host file

/-- Function `requestHandler`: the whole dispatch.  `none` models a Go
panic (a failed type assertion on a malformed record). -/
def requestHandler (env : Env) (st : Stores) (requestPath host : String) : Option Ctx :=
  match classify requestPath with
  | .rootRedirect => some { emptyCtx with redirect := some ("https://higure.wtf", 301) }
  | .oembed key => handleOembed st host key
  | .shortlink key => handleShortlink st key
  | .fileResolve key => handleFile env st host key
  | .noop => some emptyCtx

/-- Routing key for the oembed strategy as the specification words it:
the base segment with the trailing `.json` suffix stripped, and only that
trailing suffix removed.  Stated for comparison with `classify`. -/
def trailingJsonStripped (b : String) : String :=
  String.mk (b.data.take (b.data.length - ".json".length))

/-- Agreement of two optional embed sub-documents on every field the
handler reads from them, with the `enabled` flag compared only through
the `== true` test. -/
def EmbedSim : Option Doc → Option Doc → Prop
  | none, none => True
  | some e₁, some e₂ =>
      getField e₁ "title" = getField e₂ "title" ∧
      getField e₁ "author" = getField e₂ "author" ∧
      getField e₁ "description" = getField e₂ "description" ∧
      getField e₁ "color" = getField e₂ "color" ∧
      isTrueField e₁ "enabled" = isTrueField e₂ "enabled"
  | _, _ => False

/-- Agreement of two file documents on every field the handler reads,
with the boolean flags compared only through the `== true` test. -/
structure FileSim (d₁ d₂ : Doc) : Prop where
  filename : getField d₁ "filename" = getField d₂ "filename"
  key : getField d₁ "key" = getField d₂ "key"
  mimetype : getField d₁ "mimetype" = getField d₂ "mimetype"
  size : getField d₁ "size" = getField d₂ "size"
  uploader : getField d₁ "uploader" = getField d₂ "uploader"
  domain : getField d₁ "domain" = getField d₂ "domain"
  userOnlyDomain : isTrueField d₁ "userOnlyDomain" = isTrueField d₂ "userOnlyDomain"
  showLink : isTrueField d₁ "showLink" = isTrueField d₂ "showLink"
  embed : EmbedSim ((getField d₁ "embed").bind BVal.asDoc) ((getField d₂ "embed").bind BVal.asDoc)

/-- Sample uploader sub-document for concrete witnesses. -/
def sampleUploader : Doc := [("username", BVal.str "bob")]

/-- Sample embed sub-document with the embed page enabled. -/
def sampleEmbedOn : Doc :=
  [("enabled", BVal.bool true), ("title", BVal.str "from \x7bdomain\x7d"),
   ("author", BVal.str "bob at \x7bdomain\x7d"),
   ("description", BVal.str "shot on \x7bdomain\x7d"), ("color", BVal.str "#123456")]

/-- Sample file record: domain-restricted to `a.com`, embed enabled. -/
def samplePic : Doc :=
  [("filename", BVal.str "pic.png"), ("key", BVal.str "objkey"),
   ("mimetype", BVal.str "image/png"), ("size", BVal.str "2 MB"),
   ("domain", BVal.str "a.com"), ("userOnlyDomain", BVal.bool true),
   ("showLink", BVal.bool false), ("uploader", BVal.doc sampleUploader),
   ("embed", BVal.doc sampleEmbedOn)]

/-- Sample object store holding one object under key `objkey`. -/
def sampleGetObject : String → String → Except String S3Obj :=
  fun _ key =>
    if key = "objkey" then .ok ⟨some "image/png", "RAWBYTES"⟩
    else .error "NoSuchKey: not found"

/-- Sample short-link record with a scheme-less destination. -/
def sampleShort : Doc :=
  [("shortId", BVal.str "ab"), ("destination", BVal.str "example.com/x")]

/-- Sample invisible-alias record pointing at `pic.png`. -/
def sampleAlias : Doc :=
  [("_id", BVal.str ("hidden" ++ zwsp)), ("filename", BVal.str "pic.png")]

/-- Sample collaborator state for concrete witnesses. -/
def sampleStores : Stores := ⟨[samplePic], [sampleShort], [sampleAlias], sampleGetObject⟩

/-- Sample process environment. -/
def sampleEnv : Env := ⟨"https://s3.example", "bucket"⟩

/-- Embed sub-document with the flag holding the exact boolean `false`. -/
def flagEmbedOff : Doc :=
  [("enabled", BVal.bool false), ("description", BVal.str "d")]

/-- Embed sub-document whose `enabled` flag holds the STRING `"true"`. -/
def flagEmbedStr : Doc :=
  [("enabled", BVal.str "true"), ("description", BVal.str "d")]

/-- File record whose `userOnlyDomain` flag holds the STRING `"true"`
(and whose `showLink` field is absent). -/
def flagFileA : Doc :=
  [("filename", BVal.str "f.bin"), ("key", BVal.str "objkey"),
   ("mimetype", BVal.str "application/pdf"), ("size", BVal.str "1 KB"),
   ("userOnlyDomain", BVal.str "true"), ("uploader", BVal.doc sampleUploader),
   ("embed", BVal.doc flagEmbedOff)]

/-- File record whose `embed.enabled` flag holds the STRING `"true"`. -/
def flagFileB : Doc :=
  [("filename", BVal.str "f.bin"), ("key", BVal.str "objkey"),
   ("mimetype", BVal.str "application/pdf"), ("size", BVal.str "1 KB"),
   ("uploader", BVal.doc sampleUploader), ("embed", BVal.doc flagEmbedStr)]

/-- File record with no `showLink` field at all. -/
def flagFileC : Doc :=
  [("filename", BVal.str "f.bin"), ("key", BVal.str "objkey"),
   ("mimetype", BVal.str "application/pdf"), ("size", BVal.str "1 KB"),
   ("uploader", BVal.doc sampleUploader), ("embed", BVal.doc flagEmbedOff)]

theorem getField_setField_self (d : Doc) (k : String) (v : BVal) :
    getField (setField d k v) k = some v := by
  induction d with
  | nil => simp [setField, getField]
  | cons p rest ih =>
    obtain ⟨k', w⟩ := p
    by_cases h : k' = k
    · simp [setField, h, getField]
    · simp [setField, h, getField, ih]

theorem getField_setField_ne (d : Doc) (k k' : String) (v : BVal) (h : k' ≠ k) :
    getField (setField d k v) k' = getField d k' := by
  have hne : ¬ k = k' := fun hh => h hh.symm
  induction d with
  | nil => simp [setField, getField, hne]
  | cons p rest ih =>
    obtain ⟨k'', w⟩ := p
    by_cases h2 : k'' = k
    · subst h2
      simp [setField, getField, hne]
    · simp [setField, h2, getField, ih]

theorem findOne_singleton (d : Doc) (field : String) (v : Option BVal) :
    findOne [d] field v =
      if optBValEq (getField d field) v then some d else none := by
  by_cases h : optBValEq (getField d field) v <;> simp [findOne, List.find?, h]

theorem serveFile_congr (env : Env) (st₁ st₂ : Stores)
    (hg : st₁.getObject = st₂.getObject) (host : String) (d₁ d₂ : Doc)
    (h : FileSim d₁ d₂) :
    serveFile env st₁ host d₁ = serveFile env st₂ host d₂ := by
  obtain ⟨hfn, hkey, hmt, hsz, hup, hdom, huo, hsl, hem⟩ := h
  unfold serveFile
  rw [hkey, hmt, hsl, hfn, hsz, hup, hg]
  cases he1 : (getField d₁ "embed").bind BVal.asDoc with
  | none =>
    cases he2 : (getField d₂ "embed").bind BVal.asDoc with
    | none => rfl
    | some e₂ => rw [he1, he2] at hem; exact absurd hem (by simp [EmbedSim])
  | some e₁ =>
    cases he2 : (getField d₂ "embed").bind BVal.asDoc with
    | none => rw [he1, he2] at hem; exact absurd hem (by simp [EmbedSim])
    | some e₂ =>
      rw [he1, he2] at hem
      obtain ⟨ht, ha, hd, hc, hen⟩ := hem
      simp only [hd, hc, hen]

theorem handleFile_congr (env : Env) (sh inv : List Doc)
    (g : String → String → Except String S3Obj) (host k : String) (d₁ d₂ : Doc)
    (h : FileSim d₁ d₂) :
    handleFile env ⟨[d₁], sh, inv, g⟩ host k = handleFile env ⟨[d₂], sh, inv, g⟩ host k := by
  have hserve : ∀ f₁ f₂, FileSim f₁ f₂ →
      serveFile env ⟨[d₁], sh, inv, g⟩ host f₁ = serveFile env ⟨[d₂], sh, inv, g⟩ host f₂ :=
    fun f₁ f₂ hf => serveFile_congr env _ _ rfl host f₁ f₂ hf
  have hdc : ∀ f₁ f₂, FileSim f₁ f₂ →
      (if isTrueField f₁ "userOnlyDomain" then
        match (getField f₁ "domain").bind BVal.asString with
        | none => none
        | some domain =>
          if host != domain then some (sendErr emptyCtx "invalid file")
          else serveFile env ⟨[d₁], sh, inv, g⟩ host f₁
      else serveFile env ⟨[d₁], sh, inv, g⟩ host f₁)
      = (if isTrueField f₂ "userOnlyDomain" then
        match (getField f₂ "domain").bind BVal.asString with
        | none => none
        | some domain =>
          if host != domain then some (sendErr emptyCtx "invalid file")
          else serveFile env ⟨[d₂], sh, inv, g⟩ host f₂
      else serveFile env ⟨[d₂], sh, inv, g⟩ host f₂) := by
    intro f₁ f₂ hf
    rw [hf.userOnlyDomain, hf.domain, hserve f₁ f₂ hf]
  unfold handleFile lookupFile
  simp only []
  by_cases hz : strEndsWith k zwsp = true
  · rw [if_pos hz, if_pos hz]
    cases ha : findOne inv "_id" (some (.str k)) with
    | none => rfl
    | some aliasDoc =>
      simp only []
      rw [findOne_singleton, findOne_singleton, h.filename]
      by_cases hb : optBValEq (getField d₂ "filename") (getField aliasDoc "filename") = true
      · rw [if_pos hb, if_pos hb]
        simp only []
        exact hdc d₁ d₂ h
      · rw [if_neg hb, if_neg hb]
  · rw [if_neg hz, if_neg hz]
    rw [findOne_singleton, findOne_singleton, h.filename]
    by_cases hb : optBValEq (getField d₂ "filename") (some (.str k)) = true
    · rw [if_pos hb, if_pos hb]
      simp only []
      exact hdc d₁ d₂ h
    · rw [if_neg hb, if_neg hb]

theorem requestHandler_congr (env : Env) (sh inv : List Doc)
    (g : String → String → Except String S3Obj) (p host : String) (d₁ d₂ : Doc)
    (h : FileSim d₁ d₂) :
    requestHandler env ⟨[d₁], sh, inv, g⟩ p host
      = requestHandler env ⟨[d₂], sh, inv, g⟩ p host := by
  unfold requestHandler
  cases hc : classify p with
  | rootRedirect => rfl
  | noop => rfl
  | shortlink k => rfl
  | fileResolve k => exact handleFile_congr env sh inv g host k d₁ d₂ h
  | oembed k =>
    show handleOembed _ host k = handleOembed _ host k
    unfold handleOembed
    rw [show (⟨[d₁], sh, inv, g⟩ : Stores).files = [d₁] from rfl,
        show (⟨[d₂], sh, inv, g⟩ : Stores).files = [d₂] from rfl,
        findOne_singleton, findOne_singleton, h.filename]
    by_cases hb : optBValEq (getField d₂ "filename") (some (.str k)) = true
    · rw [if_pos hb, if_pos hb]
      simp only []
      have hem := h.embed
      cases he1 : (getField d₁ "embed").bind BVal.asDoc with
      | none =>
        cases he2 : (getField d₂ "embed").bind BVal.asDoc with
        | none => rfl
        | some e₂ => rw [he1, he2] at hem; exact absurd hem (by simp [EmbedSim])
      | some e₁ =>
        cases he2 : (getField d₂ "embed").bind BVal.asDoc with
        | none => rw [he1, he2] at hem; exact absurd hem (by simp [EmbedSim])
        | some e₂ =>
          rw [he1, he2] at hem
          obtain ⟨ht, ha, _, _, _⟩ := hem
          simp only [ht, ha]
    · rw [if_neg hb, if_neg hb]

theorem serveFile_body_single (env : Env) (st : Stores) (host : String) (file : Doc)
    (ctx : Ctx) (h : serveFile env st host file = some ctx) : ctx.body.length ≤ 1 := by
  unfold serveFile at h
  simp only [] at h
  repeat' split at h
  all_goals try exact Option.noConfusion h
  all_goals (have h2 := Option.some.inj h; subst h2; simp [sendErr, emptyCtx])

theorem handleOembed_body_single (st : Stores) (host k : String)
    (ctx : Ctx) (h : handleOembed st host k = some ctx) : ctx.body.length ≤ 1 := by
  unfold handleOembed at h
  repeat' split at h
  all_goals try exact Option.noConfusion h
  all_goals (have h2 := Option.some.inj h; subst h2; simp [sendErr, emptyCtx])

theorem handleShortlink_body_single (st : Stores) (k : String)
    (ctx : Ctx) (h : handleShortlink st k = some ctx) : ctx.body.length ≤ 1 := by
  unfold handleShortlink at h
  repeat' split at h
  all_goals try exact Option.noConfusion h
  all_goals (have h2 := Option.some.inj h; subst h2; simp [sendErr, emptyCtx])

theorem handleFile_body_single (env : Env) (st : Stores) (host k : String)
    (ctx : Ctx) (h : handleFile env st host k = some ctx) : ctx.body.length ≤ 1 := by
  unfold handleFile at h
  repeat' split at h
  all_goals try exact Option.noConfusion h
  all_goals try exact serveFile_body_single env st host _ ctx h
  all_goals (have h2 := Option.some.inj h; subst h2; simp [sendErr, emptyCtx])

theorem requestHandler_body_single (env : Env) (st : Stores) (p host : String)
    (ctx : Ctx) (h : requestHandler env st p host = some ctx) : ctx.body.length ≤ 1 := by
  unfold requestHandler at h
  split at h
  · have h2 := Option.some.inj h; subst h2; simp [emptyCtx]
  · exact handleOembed_body_single st host _ ctx h
  · exact handleShortlink_body_single st _ ctx h
  · exact handleFile_body_single env st host _ ctx h
  · have h2 := Option.some.inj h; subst h2; simp [emptyCtx]

theorem splitFirst_isPrefix (sep l : List Char) : splitFirst sep l <+: l := by
  induction l with
  | nil => simp [splitFirst]
  | cons c rest ih =>
    unfold splitFirst
    by_cases hp : sep.isPrefixOf (c :: rest)
    · simp [hp]
    · simpa [hp, List.cons_prefix_cons] using ih

theorem splitFirst_append_prefix (sep l : List Char) (h : hasSubstr sep l = true) :
    splitFirst sep l ++ sep <+: l := by
  induction l with
  | nil =>
    simp [hasSubstr, List.isEmpty_iff] at h
    simp [splitFirst, h]
  | cons c rest ih =>
    unfold splitFirst
    by_cases hp : sep.isPrefixOf (c :: rest)
    · rw [if_pos hp]
      simpa using List.isPrefixOf_iff_prefix.mp hp
    · simp only [hasSubstr, Bool.or_eq_true] at h
      rcases h with h | h
      · exact absurd h hp
      · simpa [hp, List.cons_prefix_cons] using ih h

theorem splitFirst_no_substr (sep l : List Char) (hne : sep ≠ []) :
    hasSubstr sep (splitFirst sep l) = false := by
  induction l with
  | nil => simp [splitFirst, hasSubstr, List.isEmpty_iff, hne]
  | cons c rest ih =>
    unfold splitFirst
    by_cases hp : sep.isPrefixOf (c :: rest)
    · simp [hp, hasSubstr, List.isEmpty_iff, hne]
    · simp only [hp, if_neg, Bool.false_eq_true, ite_false, hasSubstr, Bool.or_eq_false_iff]
      refine ⟨?_, ih⟩
      by_contra hcon
      simp only [Bool.not_eq_false] at hcon
      have h1 : sep <+: c :: splitFirst sep rest := List.isPrefixOf_iff_prefix.mp hcon
      have h2 : c :: splitFirst sep rest <+: c :: rest := by
        simpa [List.cons_prefix_cons] using splitFirst_isPrefix sep rest
      exact hp (List.isPrefixOf_iff_prefix.mpr (h1.trans h2))

theorem hasSubstr_of_suffix (sep l : List Char) (h : sep <:+ l) :
    hasSubstr sep l = true := by
  induction l with
  | nil =>
    have : sep = [] := List.suffix_nil.mp h
    simp [hasSubstr, this]
  | cons c rest ih =>
    rcases List.suffix_cons_iff.mp h with h | h
    · subst h
      simp [hasSubstr, List.isPrefixOf_iff_prefix]
    · simp [hasSubstr, ih h]


/-- C1: a file-resolve request whose resolved record has
`userOnlyDomain == true` and whose host differs from the record's
`domain` fails with the `invalid file` envelope, and the response is
identical to the one produced when no record with that filename exists. -/
theorem claim_C1_domain_policy_indistinguishable (env : Env) (st st' : Stores)
    (p host k dom : String) (d : Doc)
    (hcls : classify p = .fileResolve k)
    (hres : lookupFile st k = .inr d)
    (hflag : isTrueField d "userOnlyDomain" = true)
    (hdom : (getField d "domain").bind BVal.asString = some dom)
    (hne : host ≠ dom)
    (hmiss : lookupFile st' k = .inl "invalid file") :
    requestHandler env st p host =
      some ⟨some "application/json", [.text (encodeErrBody "invalid file")], none⟩ ∧
    requestHandler env st p host = requestHandler env st' p host := by
  have hb : (host != dom) = true := bne_iff_ne.mpr hne
  have h1 : requestHandler env st p host =
      some ⟨some "application/json", [.text (encodeErrBody "invalid file")], none⟩ := by
    simp only [requestHandler, hcls, handleFile, hres, hflag, hdom, hb, if_true]
    rfl
  have h2 : requestHandler env st' p host =
      some ⟨some "application/json", [.text (encodeErrBody "invalid file")], none⟩ := by
    simp only [requestHandler, hcls, handleFile, hmiss]
    rfl
  exact ⟨h1, h1.trans h2.symm⟩

/-- Witness for C1 at a concrete store, host `b.com` against domain `a.com`. -/
theorem claim_C1_witness :
    requestHandler sampleEnv sampleStores "/pic.png" "b.com" =
      some ⟨some "application/json", [.text (encodeErrBody "invalid file")], none⟩ ∧
    requestHandler sampleEnv sampleStores "/pic.png" "b.com" =
      requestHandler sampleEnv ⟨[], [], [], sampleGetObject⟩ "/pic.png" "b.com" :=
  claim_C1_domain_policy_indistinguishable sampleEnv sampleStores
    ⟨[], [], [], sampleGetObject⟩ "/pic.png" "b.com" "pic.png" "a.com" samplePic
    rfl rfl rfl rfl (by decide) rfl

/-- C4: a found short link is 301-redirected to the destination itself
when it begins with `http`, and to `https://` prepended to it otherwise;
no body is written. -/
theorem claim_C4_shortlink_redirect (env : Env) (st : Stores) (p host k dest : String)
    (sh : Doc)
    (hcls : classify p = .shortlink k)
    (hfind : findOne st.shorteners "shortId" (some (.str k)) = some sh)
    (hdest : (getField sh "destination").bind BVal.asString = some dest) :
    requestHandler env st p host =
      some ⟨none, [],
            some (if strStartsWith dest "http" then dest else "https://" ++ dest, 301)⟩ := by
  simp only [requestHandler, hcls, handleShortlink, hfind, hdest]
  rfl

/-- Witness for C4 at a concrete scheme-less destination. -/
theorem claim_C4_witness :
    requestHandler sampleEnv sampleStores "/s/ab" "h.io" =
      some ⟨none, [],
            some (if strStartsWith "example.com/x" "http" then "example.com/x"
                  else "https://" ++ "example.com/x", 301)⟩ :=
  claim_C4_shortlink_redirect sampleEnv sampleStores "/s/ab" "h.io" "ab"
    "example.com/x" sampleShort rfl rfl rfl

/-- C7: every lookup miss (unknown filename on the oembed or file-resolve
path, unknown shortId, unknown alias id) yields the fixed JSON error
envelope for its path — `invalid file`, `invalid short link`,
`no invisible url or file was found` — and never a panic. -/
theorem claim_C7_lookup_miss_envelopes (env : Env) (st : Stores) (p host k : String) :
    (classify p = .oembed k →
      findOne st.files "filename" (some (.str k)) = none →
      requestHandler env st p host =
        some ⟨some "application/json", [.text (encodeErrBody "invalid file")], none⟩) ∧
    (classify p = .shortlink k →
      findOne st.shorteners "shortId" (some (.str k)) = none →
      requestHandler env st p host =
        some ⟨some "application/json", [.text (encodeErrBody "invalid short link")], none⟩) ∧
    (classify p = .fileResolve k → strEndsWith k zwsp = true →
      findOne st.invisibleurls "_id" (some (.str k)) = none →
      requestHandler env st p host =
        some ⟨some "application/json",
              [.text (encodeErrBody "no invisible url or file was found")], none⟩) ∧
    (classify p = .fileResolve k → strEndsWith k zwsp = false →
      findOne st.files "filename" (some (.str k)) = none →
      requestHandler env st p host =
        some ⟨some "application/json", [.text (encodeErrBody "invalid file")], none⟩) := by
  refine ⟨?_, ?_, ?_, ?_⟩
  · intro h1 h2
    simp only [requestHandler, h1, handleOembed, h2]
    rfl
  · intro h1 h2
    simp only [requestHandler, h1, handleShortlink, h2]
    rfl
  · intro h1 h2 h3
    simp only [requestHandler, h1, handleFile, lookupFile, h2, if_true, h3]
    rfl
  · intro h1 h2 h3
    simp only [requestHandler, h1, handleFile, lookupFile, h2, Bool.false_eq_true,
      if_false, h3]
    rfl

/-- Witness for C7: all four misses on an empty metadata store. -/
theorem claim_C7_witness :
    requestHandler sampleEnv ⟨[], [], [], sampleGetObject⟩ "/x.json" "h.io" =
      some ⟨some "application/json", [.text (encodeErrBody "invalid file")], none⟩ ∧
    requestHandler sampleEnv ⟨[], [], [], sampleGetObject⟩ "/s/zz" "h.io" =
      some ⟨some "application/json", [.text (encodeErrBody "invalid short link")], none⟩ ∧
    requestHandler sampleEnv ⟨[], [], [], sampleGetObject⟩ ("/h" ++ zwsp) "h.io" =
      some ⟨some "application/json",
            [.text (encodeErrBody "no invisible url or file was found")], none⟩ ∧
    requestHandler sampleEnv ⟨[], [], [], sampleGetObject⟩ "/y" "h.io" =
      some ⟨some "application/json", [.text (encodeErrBody "invalid file")], none⟩ :=
  ⟨(claim_C7_lookup_miss_envelopes sampleEnv ⟨[], [], [], sampleGetObject⟩
      "/x.json" "h.io" "x").1 rfl rfl,
   (claim_C7_lookup_miss_envelopes sampleEnv ⟨[], [], [], sampleGetObject⟩
      "/s/zz" "h.io" "zz").2.1 rfl rfl,
   (claim_C7_lookup_miss_envelopes sampleEnv ⟨[], [], [], sampleGetObject⟩
      ("/h" ++ zwsp) "h.io" ("h" ++ zwsp)).2.2.1 rfl rfl rfl,
   (claim_C7_lookup_miss_envelopes sampleEnv ⟨[], [], [], sampleGetObject⟩
      "/y" "h.io" "y").2.2.2 rfl rfl rfl⟩

/-- C9: a successful oembed request answers with exactly the four-field
JSON document (`version`, `type`, `title`, `author_name`, in Go struct
order, nothing else) under Content-Type `application/json`, with title
and author substituted. -/
theorem claim_C9_oembed_exact_json (env : Env) (st : Stores)
    (p host k title author : String) (file embed : Doc)
    (hcls : classify p = .oembed k)
    (hfind : findOne st.files "filename" (some (.str k)) = some file)
    (hembed : (getField file "embed").bind BVal.asDoc = some embed)
    (htitle : (getField embed "title").bind BVal.asString = some title)
    (hauthor : (getField embed "author").bind BVal.asString = some author) :
    requestHandler env st p host =
      some ⟨some "application/json",
            [.text ("\x7b\"version\":\"1.0\",\"type\":\"link\",\"title\":" ++
                    jsonQuote (strReplaceAll title domainToken host) ++
                    ",\"author_name\":" ++
                    jsonQuote (strReplaceAll author domainToken host) ++ "\x7d\n")],
            none⟩ := by
  simp only [requestHandler, hcls, handleOembed, hfind, hembed, htitle, hauthor,
    encodeOEmbedBody]

/-- Witness for C9 at the sample record. -/
theorem claim_C9_witness :
    requestHandler sampleEnv sampleStores "/pic.png.json" "h.io" =
      some ⟨some "application/json",
            [.text ("\x7b\"version\":\"1.0\",\"type\":\"link\",\"title\":" ++
                    jsonQuote (strReplaceAll "from \x7bdomain\x7d" domainToken "h.io") ++
                    ",\"author_name\":" ++
                    jsonQuote (strReplaceAll "bob at \x7bdomain\x7d" domainToken "h.io") ++
                    "\x7d\n")],
            none⟩ :=
  claim_C9_oembed_exact_json sampleEnv sampleStores "/pic.png.json" "h.io" "pic.png"
    "from \x7bdomain\x7d" "bob at \x7bdomain\x7d" samplePic sampleEmbedOn
    rfl rfl rfl rfl rfl

/-- C2: once the domain check passes and the object fetch succeeds, the
branch is chosen in source order — embed page when `embed.enabled == true`
(with `isImage`/`isVideo` from the mimetype category and the full data
set), else raw video bytes with the upstream Content-Type when
`showLink == true` and the category is `video`, else the show-link page
when `showLink == true`, else raw bytes with the upstream Content-Type. -/
theorem claim_C2_response_branch_selection (env : Env) (st : Stores)
    (p host k key mt descRaw color user name size ct : String)
    (file embed uploader : Doc) (obj : S3Obj)
    (hcls : classify p = .fileResolve k)
    (hres : lookupFile st k = .inr file)
    (hdc : isTrueField file "userOnlyDomain" = false ∨
           (getField file "domain").bind BVal.asString = some host)
    (hkey : (getField file "key").bind BVal.asString = some key)
    (hobj : st.getObject env.s3Bucket key = .ok obj)
    (hmt : (getField file "mimetype").bind BVal.asString = some mt)
    (hembed : (getField file "embed").bind BVal.asDoc = some embed)
    (hupl : (getField file "uploader").bind BVal.asDoc = some uploader)
    (hdesc : (getField embed "description").bind BVal.asString = some descRaw)
    (hcolor : (getField embed "color").bind BVal.asString = some color)
    (huser : (getField uploader "username").bind BVal.asString = some user)
    (hname : (getField file "filename").bind BVal.asString = some name)
    (hsize : (getField file "size").bind BVal.asString = some size)
    (hct : obj.contentType = some ct) :
    requestHandler env st p host = serveFile env st host file ∧
    (isTrueField embed "enabled" = true →
      serveFile env st host file = some ⟨some "text/html",
        [.embedPage ⟨env.s3Endpoint ++ "/" ++ env.s3Bucket ++ "/" ++ key,
                     "https://" ++ host ++ "/" ++ name ++ ".json",
                     strReplaceAll descRaw domainToken host, color,
                     strSplitFirst mt "/" == "image", strSplitFirst mt "/" == "video",
                     user, size, name⟩], none⟩) ∧
    (isTrueField embed "enabled" = false → isTrueField file "showLink" = true →
      strSplitFirst mt "/" = "video" →
      serveFile env st host file = some ⟨some ct, [.text obj.body], none⟩) ∧
    (isTrueField embed "enabled" = false → isTrueField file "showLink" = true →
      strSplitFirst mt "/" ≠ "video" →
      serveFile env st host file = some ⟨some "text/html",
        [.showLinkPage (env.s3Endpoint ++ "/" ++ env.s3Bucket ++ "/" ++ key)], none⟩) ∧
    (isTrueField embed "enabled" = false → isTrueField file "showLink" = false →
      serveFile env st host file = some ⟨some ct, [.text obj.body], none⟩) := by
  refine ⟨?_, ?_, ?_, ?_, ?_⟩
  · rcases hdc with hdc | hdc
    · by_cases hflag : isTrueField file "userOnlyDomain" = true
      · rw [hflag] at hdc; exact absurd hdc (by simp)
      · simp only [Bool.not_eq_true] at hflag
        simp only [requestHandler, hcls, handleFile, hres, hflag, Bool.false_eq_true,
          if_false]
    · by_cases hflag : isTrueField file "userOnlyDomain" = true
      · simp only [requestHandler, hcls, handleFile, hres, hflag, if_true, hdc,
          bne_self_eq_false, Bool.false_eq_true, if_false]
      · simp only [Bool.not_eq_true] at hflag
        simp only [requestHandler, hcls, handleFile, hres, hflag, Bool.false_eq_true,
          if_false]
  · intro hen
    simp only [serveFile, hkey, hobj, hmt, hembed, hupl, hdesc, hen, if_true,
      hcolor, huser, hname, hsize]
  · intro hen hsl hv
    have hbv : (strSplitFirst mt "/" == "video") = true := beq_iff_eq.mpr hv
    simp only [serveFile, hkey, hobj, hmt, hembed, hupl, hdesc, hen,
      Bool.false_eq_true, if_false, hsl, if_true, hbv, hct, deref]
  · intro hen hsl hv
    have hbv : (strSplitFirst mt "/" == "video") = false := beq_eq_false_iff_ne.mpr hv
    simp only [serveFile, hkey, hobj, hmt, hembed, hupl, hdesc, hen,
      Bool.false_eq_true, if_false, hsl, if_true, hbv]
  · intro hen hsl
    simp only [serveFile, hkey, hobj, hmt, hembed, hupl, hdesc, hen, hsl,
      Bool.false_eq_true, if_false, hct, deref]

/-- Witness for C2 at the sample record (embed enabled, image category),
host equal to the restricted domain. -/
theorem claim_C2_witness :
    requestHandler sampleEnv sampleStores "/pic.png" "a.com" =
      serveFile sampleEnv sampleStores "a.com" samplePic ∧
    (isTrueField sampleEmbedOn "enabled" = true →
      serveFile sampleEnv sampleStores "a.com" samplePic = some ⟨some "text/html",
        [.embedPage ⟨sampleEnv.s3Endpoint ++ "/" ++ sampleEnv.s3Bucket ++ "/" ++ "objkey",
                     "https://" ++ "a.com" ++ "/" ++ "pic.png" ++ ".json",
                     strReplaceAll "shot on \x7bdomain\x7d" domainToken "a.com", "#123456",
                     strSplitFirst "image/png" "/" == "image",
                     strSplitFirst "image/png" "/" == "video",
                     "bob", "2 MB", "pic.png"⟩], none⟩) ∧
    (isTrueField sampleEmbedOn "enabled" = false →
      isTrueField samplePic "showLink" = true →
      strSplitFirst "image/png" "/" = "video" →
      serveFile sampleEnv sampleStores "a.com" samplePic =
        some ⟨some "image/png", [.text "RAWBYTES"], none⟩) ∧
    (isTrueField sampleEmbedOn "enabled" = false →
      isTrueField samplePic "showLink" = true →
      strSplitFirst "image/png" "/" ≠ "video" →
      serveFile sampleEnv sampleStores "a.com" samplePic = some ⟨some "text/html",
        [.showLinkPage (sampleEnv.s3Endpoint ++ "/" ++ sampleEnv.s3Bucket ++ "/" ++
          "objkey")], none⟩) ∧
    (isTrueField sampleEmbedOn "enabled" = false →
      isTrueField samplePic "showLink" = false →
      serveFile sampleEnv sampleStores "a.com" samplePic =
        some ⟨some "image/png", [.text "RAWBYTES"], none⟩) :=
  claim_C2_response_branch_selection sampleEnv sampleStores "/pic.png" "a.com"
    "pic.png" "objkey" "image/png" "shot on \x7bdomain\x7d" "#123456" "bob" "pic.png"
    "2 MB" "image/png" samplePic sampleEmbedOn sampleUploader ⟨some "image/png", "RAWBYTES"⟩
    rfl rfl (Or.inr rfl) rfl rfl rfl rfl rfl rfl rfl rfl rfl rfl rfl

/-- C5: every occurrence of the literal token in `domainToken` is replaced
by the request host in `embed.title` and `embed.author` on the oembed
path and in `embed.description` on the file-resolve path, while `color`,
`username`, `filename` and `size` pass through verbatim. -/
theorem claim_C5_domain_substitution (env : Env) (st : Stores)
    (p host k title author key mt descRaw color user name size : String)
    (file embed uploader : Doc) (obj : S3Obj) :
    (classify p = .oembed k →
     findOne st.files "filename" (some (.str k)) = some file →
     (getField file "embed").bind BVal.asDoc = some embed →
     (getField embed "title").bind BVal.asString = some title →
     (getField embed "author").bind BVal.asString = some author →
     requestHandler env st p host =
       some ⟨some "application/json",
             [.text (encodeOEmbedBody (strReplaceAll title domainToken host)
                                      (strReplaceAll author domainToken host))], none⟩) ∧
    ((getField file "key").bind BVal.asString = some key →
     st.getObject env.s3Bucket key = .ok obj →
     (getField file "mimetype").bind BVal.asString = some mt →
     (getField file "embed").bind BVal.asDoc = some embed →
     (getField file "uploader").bind BVal.asDoc = some uploader →
     (getField embed "description").bind BVal.asString = some descRaw →
     isTrueField embed "enabled" = true →
     (getField embed "color").bind BVal.asString = some color →
     (getField uploader "username").bind BVal.asString = some user →
     (getField file "filename").bind BVal.asString = some name →
     (getField file "size").bind BVal.asString = some size →
     serveFile env st host file = some ⟨some "text/html",
       [.embedPage ⟨env.s3Endpoint ++ "/" ++ env.s3Bucket ++ "/" ++ key,
                    "https://" ++ host ++ "/" ++ name ++ ".json",
                    strReplaceAll descRaw domainToken host, color,
                    strSplitFirst mt "/" == "image", strSplitFirst mt "/" == "video",
                    user, size, name⟩], none⟩) := by
  constructor
  · intro h1 h2 h3 h4 h5
    simp only [requestHandler, h1, handleOembed, h2, h3, h4, h5]
  · intro h1 h2 h3 h4 h5 h6 h7 h8 h9 h10 h11
    simp only [serveFile, h1, h2, h3, h4, h5, h6, h7, if_true, h8, h9, h10, h11]

/-- Witness for C5 at the sample record. -/
theorem claim_C5_witness :
    requestHandler sampleEnv sampleStores "/pic.png.json" "h.io" =
      some ⟨some "application/json",
            [.text (encodeOEmbedBody
                      (strReplaceAll "from \x7bdomain\x7d" domainToken "h.io")
                      (strReplaceAll "bob at \x7bdomain\x7d" domainToken "h.io"))],
            none⟩ ∧
    serveFile sampleEnv sampleStores "h.io" samplePic = some ⟨some "text/html",
      [.embedPage ⟨sampleEnv.s3Endpoint ++ "/" ++ sampleEnv.s3Bucket ++ "/" ++ "objkey",
                   "https://" ++ "h.io" ++ "/" ++ "pic.png" ++ ".json",
                   strReplaceAll "shot on \x7bdomain\x7d" domainToken "h.io", "#123456",
                   strSplitFirst "image/png" "/" == "image",
                   strSplitFirst "image/png" "/" == "video",
                   "bob", "2 MB", "pic.png"⟩], none⟩ :=
  ⟨(claim_C5_domain_substitution sampleEnv sampleStores "/pic.png.json" "h.io"
      "pic.png" "from \x7bdomain\x7d" "bob at \x7bdomain\x7d" "objkey" "image/png"
      "shot on \x7bdomain\x7d" "#123456" "bob" "pic.png" "2 MB" samplePic sampleEmbedOn
      sampleUploader ⟨some "image/png", "RAWBYTES"⟩).1 rfl rfl rfl rfl rfl,
   (claim_C5_domain_substitution sampleEnv sampleStores "/pic.png.json" "h.io"
      "pic.png" "from \x7bdomain\x7d" "bob at \x7bdomain\x7d" "objkey" "image/png"
      "shot on \x7bdomain\x7d" "#123456" "bob" "pic.png" "2 MB" samplePic sampleEmbedOn
      sampleUploader ⟨some "image/png", "RAWBYTES"⟩).2
      rfl rfl rfl rfl rfl rfl rfl rfl rfl rfl rfl⟩

theorem serveFile_embedPage_name (env : Env) (st : Stores) (host : String)
    (d : Doc) (ctx : Ctx) (cd : EmbedData) (name : String)
    (hn : (getField d "filename").bind BVal.asString = some name)
    (h : serveFile env st host d = some ctx)
    (hmem : Chunk.embedPage cd ∈ ctx.body) :
    cd.oEmbedURL = "https://" ++ host ++ "/" ++ name ++ ".json" := by
  unfold serveFile at h
  simp only [] at h
  repeat' split at h
  all_goals first
    | exact Option.noConfusion h
    | (have h2 := Option.some.inj h; subst h2; simp_all [sendErr, emptyCtx])

/-- C6: a found invisible alias resolving to filename `f` produces a
response identical to requesting `f` directly, and any embed page in the
alias response carries the oEmbed discovery URL built from the canonical
filename of the resolved record, never from the alias id. -/
theorem claim_C6_invisible_alias_equiv (env : Env) (st : Stores)
    (p₁ p₂ host a f : String) (aliasDoc : Doc)
    (h1 : classify p₁ = .fileResolve a) (hz1 : strEndsWith a zwsp = true)
    (h2 : classify p₂ = .fileResolve f) (hz2 : strEndsWith f zwsp = false)
    (ha : findOne st.invisibleurls "_id" (some (.str a)) = some aliasDoc)
    (hf : getField aliasDoc "filename" = some (.str f)) :
    requestHandler env st p₁ host = requestHandler env st p₂ host ∧
    (∀ d name ctx cd,
      findOne st.files "filename" (some (.str f)) = some d →
      (getField d "filename").bind BVal.asString = some name →
      requestHandler env st p₁ host = some ctx →
      Chunk.embedPage cd ∈ ctx.body →
      cd.oEmbedURL = "https://" ++ host ++ "/" ++ name ++ ".json") := by
  have hred : requestHandler env st p₁ host = requestHandler env st p₂ host := by
    simp only [requestHandler, h1, h2, handleFile, lookupFile, hz1, if_true, ha, hf,
      hz2, Bool.false_eq_true, if_false]
  refine ⟨hred, ?_⟩
  intro d name ctx cd hd hn hctx hmem
  rw [hred] at hctx
  simp only [requestHandler, h2, handleFile, lookupFile, hz2, Bool.false_eq_true,
    if_false, hd] at hctx
  repeat' split at hctx
  all_goals first
    | exact Option.noConfusion hctx
    | exact serveFile_embedPage_name env st host d ctx cd name hn hctx hmem
    | (have h2 := Option.some.inj hctx; subst h2; simp [sendErr, emptyCtx] at hmem)

/-- Witness for C6: the sample alias against the direct request. -/
theorem claim_C6_witness :
    requestHandler sampleEnv sampleStores ("/hidden" ++ zwsp) "a.com" =
      requestHandler sampleEnv sampleStores "/pic.png" "a.com" ∧
    EmbedData.oEmbedURL ⟨"https://s3.example/bucket/objkey", "https://a.com/pic.png.json",
        "shot on a.com", "#123456", true, false, "bob", "2 MB", "pic.png"⟩ =
      "https://" ++ "a.com" ++ "/" ++ "pic.png" ++ ".json" := by
  have h := claim_C6_invisible_alias_equiv sampleEnv sampleStores
    ("/hidden" ++ zwsp) "/pic.png" "a.com" ("hidden" ++ zwsp) "pic.png" sampleAlias
    rfl rfl rfl rfl rfl rfl
  exact ⟨h.1,
    h.2 samplePic "pic.png"
      ⟨some "text/html",
       [.embedPage ⟨"https://s3.example/bucket/objkey", "https://a.com/pic.png.json",
          "shot on a.com", "#123456", true, false, "bob", "2 MB", "pic.png"⟩], none⟩
      ⟨"https://s3.example/bucket/objkey", "https://a.com/pic.png.json",
       "shot on a.com", "#123456", true, false, "bob", "2 MB", "pic.png"⟩
      rfl rfl rfl (by simp)⟩

/-- C8: the response body of every non-panicking request holds at most
one write, so whenever an error envelope is in the body it is the whole
body — no partial success output precedes it. -/
theorem claim_C8_no_partial_output (env : Env) (st : Stores) (p host : String)
    (ctx : Ctx) (h : requestHandler env st p host = some ctx) :
    ∀ c ∈ ctx.body, ctx.body = [c] := by
  intro c hc
  have hlen := requestHandler_body_single env st p host ctx h
  rcases hb : ctx.body with _ | ⟨x, _ | ⟨y, ys⟩⟩
  · rw [hb] at hc
    simp at hc
  · rw [hb] at hc
    simp at hc
    subst hc
    rfl
  · rw [hb] at hlen
    simp at hlen

/-- Witness for C8: a not-found error response is exactly the envelope. -/
theorem claim_C8_witness :
    (sendErr emptyCtx "invalid file").body = [Chunk.text (encodeErrBody "invalid file")] :=
  claim_C8_no_partial_output sampleEnv ⟨[], [], [], sampleGetObject⟩ "/y" "h.io"
    (sendErr emptyCtx "invalid file") rfl
    (Chunk.text (encodeErrBody "invalid file")) (by simp [sendErr, emptyCtx])

/-- C3 counterexample: for base segment `a.json.json` the routing key
produced by the code is `a`, the part before the FIRST occurrence of
`.json`, while stripping only the trailing suffix would give `a.json`. -/
theorem claim_C3_counterexample :
    classify "/a.json.json" = Strategy.oembed "a" ∧
    trailingJsonStripped (pathBase "/a.json.json") = "a.json" ∧
    Strategy.oembed "a" ≠
      Strategy.oembed (trailingJsonStripped (pathBase "/a.json.json")) := by
  refine ⟨rfl, rfl, ?_⟩
  decide

/-- C3 (amended): when the base segment ends with `.json`, the strategy
is oembed and the routing key is the prefix of the base segment before
the first occurrence of `.json`: the key followed by `.json` is a prefix
of the base segment and the key itself contains no occurrence of
`.json`.  (This equals trailing-suffix stripping only when `.json`
occurs once.) -/
theorem claim_C3_first_occurrence_key (p b : String)
    (hb : pathBase p = b) (hj : strEndsWith b ".json" = true) :
    classify p = .oembed (strSplitFirst b ".json") ∧
    (strSplitFirst b ".json").data ++ ".json".data <+: b.data ∧
    hasSubstr ".json".data (strSplitFirst b ".json").data = false := by
  have hp : p ≠ "/" := by
    intro he
    subst he
    have hb2 : b = "/" := by rw [← hb]; rfl
    subst hb2
    exact absurd hj (by decide)
  refine ⟨?_, ?_, ?_⟩
  · simp only [classify, hb]
    rw [if_neg hp, if_pos hj]
  · have hsuf : ".json".data <:+ b.data := List.isSuffixOf_iff_suffix.mp hj
    have hocc : hasSubstr ".json".data b.data = true := hasSubstr_of_suffix _ _ hsuf
    exact splitFirst_append_prefix _ _ hocc
  · exact splitFirst_no_substr _ _ (by decide)

/-- Witness for C3 at a single-occurrence base segment. -/
theorem claim_C3_witness :
    classify "/pic.png.json" = .oembed (strSplitFirst "pic.png.json" ".json") ∧
    (strSplitFirst "pic.png.json" ".json").data ++ ".json".data <+:
      "pic.png.json".data ∧
    hasSubstr ".json".data (strSplitFirst "pic.png.json" ".json").data = false :=
  claim_C3_first_occurrence_key "/pic.png.json" "pic.png.json" rfl rfl

theorem isTrueField_setField_false (d : Doc) (k : String) :
    isTrueField (setField d k (.bool false)) k = false := by
  simp [isTrueField, getField_setField_self]

theorem EmbedSim_refl (x : Option Doc) : EmbedSim x x := by
  cases x <;> simp [EmbedSim]

theorem isTrueField_congr (d₁ d₂ : Doc) (k : String)
    (h : getField d₁ k = getField d₂ k) : isTrueField d₁ k = isTrueField d₂ k := by
  simp [isTrueField, h]

/-- C10: the flags `userOnlyDomain`, `embed.enabled` and `showLink` fire
only on the exact boolean `true`: a record whose flag is missing, holds a
non-boolean value, or holds `false` (captured by the `== true` test being
false) behaves identically to the same record with the flag set to the
boolean `false`. -/
theorem claim_C10_strict_boolean_flags :
    (∀ (env : Env) (sh inv : List Doc) (g : String → String → Except String S3Obj)
       (p host : String) (d : Doc),
       isTrueField d "userOnlyDomain" = false →
       requestHandler env ⟨[d], sh, inv, g⟩ p host =
         requestHandler env ⟨[setField d "userOnlyDomain" (.bool false)], sh, inv, g⟩
           p host) ∧
    (∀ (env : Env) (sh inv : List Doc) (g : String → String → Except String S3Obj)
       (p host : String) (d e : Doc),
       getField d "embed" = some (.doc e) →
       isTrueField e "enabled" = false →
       requestHandler env ⟨[d], sh, inv, g⟩ p host =
         requestHandler env
           ⟨[setField d "embed" (.doc (setField e "enabled" (.bool false)))],
            sh, inv, g⟩ p host) ∧
    (∀ (env : Env) (sh inv : List Doc) (g : String → String → Except String S3Obj)
       (p host : String) (d : Doc),
       isTrueField d "showLink" = false →
       requestHandler env ⟨[d], sh, inv, g⟩ p host =
         requestHandler env ⟨[setField d "showLink" (.bool false)], sh, inv, g⟩
           p host) := by
  refine ⟨?_, ?_, ?_⟩
  · intro env sh inv g p host d hflag
    have hne : ∀ k', k' ≠ "userOnlyDomain" →
        getField d k' = getField (setField d "userOnlyDomain" (.bool false)) k' :=
      fun k' hk => (getField_setField_ne d _ k' _ hk).symm
    refine requestHandler_congr env sh inv g p host _ _
      ⟨hne _ (by decide), hne _ (by decide), hne _ (by decide), hne _ (by decide),
       hne _ (by decide), hne _ (by decide), ?_, ?_, ?_⟩
    · rw [hflag, isTrueField_setField_false]
    · exact isTrueField_congr _ _ _ (hne _ (by decide))
    · rw [← hne "embed" (by decide)]
      exact EmbedSim_refl _
  · intro env sh inv g p host d e he hflag
    have hne : ∀ k', k' ≠ "embed" →
        getField d k' =
          getField (setField d "embed" (.doc (setField e "enabled" (.bool false)))) k' :=
      fun k' hk => (getField_setField_ne d _ k' _ hk).symm
    have hee : ∀ k', k' ≠ "enabled" →
        getField e k' = getField (setField e "enabled" (.bool false)) k' :=
      fun k' hk => (getField_setField_ne e _ k' _ hk).symm
    refine requestHandler_congr env sh inv g p host _ _
      ⟨hne _ (by decide), hne _ (by decide), hne _ (by decide), hne _ (by decide),
       hne _ (by decide), hne _ (by decide),
       isTrueField_congr _ _ _ (hne _ (by decide)),
       isTrueField_congr _ _ _ (hne _ (by decide)), ?_⟩
    rw [he, getField_setField_self]
    simp only [Option.bind_some, BVal.asDoc, EmbedSim]
    exact ⟨hee _ (by decide), hee _ (by decide), hee _ (by decide), hee _ (by decide),
      by rw [hflag, isTrueField_setField_false]⟩
  · intro env sh inv g p host d hflag
    have hne : ∀ k', k' ≠ "showLink" →
        getField d k' = getField (setField d "showLink" (.bool false)) k' :=
      fun k' hk => (getField_setField_ne d _ k' _ hk).symm
    refine requestHandler_congr env sh inv g p host _ _
      ⟨hne _ (by decide), hne _ (by decide), hne _ (by decide), hne _ (by decide),
       hne _ (by decide), hne _ (by decide),
       isTrueField_congr _ _ _ (hne _ (by decide)), ?_, ?_⟩
    · rw [hflag, isTrueField_setField_false]
    · rw [← hne "embed" (by decide)]
      exact EmbedSim_refl _

/-- Witness for C10: a record with string-valued `userOnlyDomain`, a
string-valued `embed.enabled`, and a missing `showLink`, each compared
with the boolean-false version. -/
theorem claim_C10_witness :
    requestHandler sampleEnv ⟨[flagFileA], [], [], sampleGetObject⟩ "/f.bin" "h.io" =
      requestHandler sampleEnv
        ⟨[setField flagFileA "userOnlyDomain" (.bool false)], [], [], sampleGetObject⟩
        "/f.bin" "h.io" ∧
    requestHandler sampleEnv ⟨[flagFileB], [], [], sampleGetObject⟩ "/f.bin" "h.io" =
      requestHandler sampleEnv
        ⟨[setField flagFileB "embed"
            (.doc (setField flagEmbedStr "enabled" (.bool false)))],
         [], [], sampleGetObject⟩ "/f.bin" "h.io" ∧
    requestHandler sampleEnv ⟨[flagFileC], [], [], sampleGetObject⟩ "/f.bin" "h.io" =
      requestHandler sampleEnv
        ⟨[setField flagFileC "showLink" (.bool false)], [], [], sampleGetObject⟩
        "/f.bin" "h.io" :=
  ⟨claim_C10_strict_boolean_flags.1 sampleEnv [] [] sampleGetObject "/f.bin" "h.io"
     flagFileA rfl,
   claim_C10_strict_boolean_flags.2.1 sampleEnv [] [] sampleGetObject "/f.bin" "h.io"
     flagFileB flagEmbedStr rfl rfl,
   claim_C10_strict_boolean_flags.2.2 sampleEnv [] [] sampleGetObject "/f.bin" "h.io"
     flagFileC rfl⟩

end HigureProxy
